import Mathlib

/-!
Shallow embedding of the GalleryAPI product catalog
(backend/controllers/productController.js, backend/models/Product.js,
backend/middleware/errorHandler.js) and verification of the frozen
claims about it.

Modelling conventions:
* Mongo ObjectIds are `Nat`; a `State.nextId` counter models fresh id
  generation (ObjectIds are never reused).
* `createdAt` timestamps are `Nat`.
* Prices are embedded as `Int` (the parsed value of a supplied,
  well-formed numeric form field); a missing price is `none`.
* Multipart form fields arrive as strings; an absent field is `none`.
  JavaScript truthiness of strings (`""` is falsy) is modelled by
  `jsOrStr`; `parseInt(x) || d` for page/limit is modelled by
  `jsParseIntOr` (`0` is falsy).
* The Cloudinary image store is a `Cloud` record: the multiset of
  stored public ids plus injected outcomes for the next upload/destroy
  call (`uploadOk`, `destroyOk`); a rejected promise leaves the remote
  store unchanged and surfaces as `none`.
* Mongo `$text` relevance search is external-collaborator behaviour,
  so `getProducts` is parameterised by the match predicate `ms`.
-/

/-- The fixed category enumeration of the Product schema. -/
def categories : List String :=
  ["Electronics", "Fashion", "Home & Garden", "Sports", "Books", "Toys",
   "Health & Beauty", "Food & Beverages", "Automotive", "Other"]

/-- A product document (backend/models/Product.js). -/
structure Product where
  id : Nat
  title : String
  description : String
  imageURL : String
  imagePublicId : String
  shopId : Nat
  category : String
  price : Option Int
  inStock : Bool
  createdAt : Nat
deriving Repr, DecidableEq

/-- Schema validation run by mongoose on save / runValidators:
required + maxlength on title and description, required imageURL and
imagePublicId, category enum, price min 0. -/
def validProduct (p : Product) : Bool :=
  p.title ≠ "" && p.title.length ≤ 100 &&
  p.description ≠ "" && p.description.length ≤ 1000 &&
  p.imageURL ≠ "" && p.imagePublicId ≠ "" &&
  categories.contains p.category &&
  (match p.price with
   | some v => decide (0 ≤ v)
   | none => true)

/-- The external image store (Cloudinary), with injected outcomes for
the next upload and destroy calls. -/
structure Cloud where
  images : List String
  uploadOk : Bool
  nextPublicId : String
  nextUrl : String
  destroyOk : Bool
deriving Repr, DecidableEq

/-- `uploadToCloudinary`: on success the image is stored and
`{secure_url, public_id}` returned; a rejected promise gives `none`. -/
def uploadImage (c : Cloud) : Option (Cloud × String × String) :=
  if c.uploadOk then
    some ({ c with images := c.nextPublicId :: c.images }, c.nextUrl, c.nextPublicId)
  else none

/-- `cloudinary.uploader.destroy`: removes the image with the given
public id; a rejected promise gives `none` and leaves the store as is. -/
def destroyImage (c : Cloud) (pubId : String) : Option Cloud :=
  if c.destroyOk then some { c with images := c.images.erase pubId } else none

/-- Server state: the product collection, the image store, and the
fresh-ObjectId counter (also used as the creation timestamp clock). -/
structure State where
  products : List Product
  cloud : Cloud
  nextId : Nat
deriving Repr, DecidableEq

/-- Whitespace as stripped by the JS / mongoose `trim` setter. -/
def isSpaceChar (c : Char) : Bool :=
  c = ' ' || c = '\t' || c = '\n' || c = '\r'

/-- `String.prototype.trim` (the mongoose `trim: true` setter),
written by structural recursion so it evaluates in the kernel. -/
def jsTrim (s : String) : String :=
  String.mk (((s.data.dropWhile isSpaceChar).reverse.dropWhile isSpaceChar).reverse)

/-- JavaScript `a || b` for form-field strings: `undefined` and `""`
are falsy. -/
def jsOrStr : Option String → String → String
  | none, d => d
  | some t, d => if t = "" then d else t

/-- `inStock === 'false' ? false : true` for a supplied form value. -/
def parseInStock (v : String) : Bool :=
  if v = "false" then false else true

/-- `parseInt(q) || d`: an absent (or unparsable) parameter and the
value 0 (falsy) both give the default. -/
def jsParseIntOr (v : Option Nat) (d : Nat) : Nat :=
  match v with
  | none => d
  | some n => if n = 0 then d else n

/-- The multipart body of POST /api/products. -/
structure CreateForm where
  title : Option String
  description : Option String
  category : Option String
  price : Option Int
  inStock : Option String
deriving Repr, DecidableEq

/-- `createProduct` (controller): 400 without a file; upload to
Cloudinary (rejection → catch → 500); build the document; `save`
validates it — the controller's own catch turns a ValidationError into
a 500 response and the state keeps the already-uploaded image. -/
def createProduct (s : State) (userId : Nat) (form : CreateForm) (hasFile : Bool) :
    Nat × State :=
  if !hasFile then (400, s)
  else
    match uploadImage s.cloud with
    | none => (500, s)
    | some (c1, url, pubId) =>
      let p : Product :=
        { id := s.nextId
          title := jsTrim (form.title.getD "")
          description := jsTrim (form.description.getD "")
          imageURL := url
          imagePublicId := pubId
          shopId := userId
          category := jsTrim (form.category.getD "")
          price := form.price
          inStock := match form.inStock with
                     | some v => parseInStock v
                     | none => true
          createdAt := s.nextId }
      if validProduct p then
        (201, { s with products := p :: s.products, cloud := c1, nextId := s.nextId + 1 })
      else
        (500, { s with cloud := c1 })

/-- Pagination metadata `{page, pages, total, limit}`. -/
structure Pagination where
  page : Nat
  pages : Nat
  total : Nat
  limit : Nat
deriving Repr, DecidableEq

/-- Query string of GET /api/products. -/
structure ListQuery where
  page : Option Nat
  limit : Option Nat
  category : Option String
  shopId : Option Nat
  search : Option String
deriving Repr, DecidableEq

/-- The mongo filter object built by `getProducts`: category and shopId
exact-match, `$text` search via the external predicate `ms`. -/
def matchesFilter (ms : String → Product → Bool) (q : ListQuery) (p : Product) : Bool :=
  (match q.category with
   | some c => p.category = c
   | none => true) &&
  (match q.shopId with
   | some sid => p.shopId = sid
   | none => true) &&
  (match q.search with
   | some t => ms t p
   | none => true)

/-- `.sort({ createdAt: -1 })`: newest first. -/
def sortNewestFirst (l : List Product) : List Product :=
  l.insertionSort (fun a b => b.createdAt ≤ a.createdAt)

/-- `getProducts` (controller): defaults page=1 limit=10 through JS
falsiness, skip/limit windowing over the sorted filtered collection,
`pages = Math.ceil(total / limit)`. -/
def getProducts (ms : String → Product → Bool) (s : State) (q : ListQuery) :
    Nat × List Product × Pagination :=
  let page := jsParseIntOr q.page 1
  let limit := jsParseIntOr q.limit 10
  let skip := (page - 1) * limit
  let filtered := s.products.filter (matchesFilter ms q)
  let items := ((sortNewestFirst filtered).drop skip).take limit
  let total := filtered.length
  (200, items, ⟨page, (total + limit - 1) / limit, total, limit⟩)

/-- `getProduct` (controller): 404 when `findById` returns nothing,
200 otherwise; read-only, so only the status matters. -/
def getProduct (s : State) (pid : Nat) : Nat :=
  match s.products.find? (fun p => p.id = pid) with
  | none => 404
  | some _ => 200

/-- The multipart body of PUT /api/products/:id (all fields optional). -/
structure Patch where
  title : Option String
  description : Option String
  category : Option String
  price : Option Int
  inStock : Option String
deriving Repr, DecidableEq

/-- The `updateData` object: `field || product.field` for the strings
(with the trim setter applied on update), explicit undefined checks for
price and inStock. -/
def applyPatch (p : Product) (patch : Patch) : Product :=
  { p with
    title := jsTrim (jsOrStr patch.title p.title)
    description := jsTrim (jsOrStr patch.description p.description)
    category := jsTrim (jsOrStr patch.category p.category)
    price := match patch.price with
             | some v => some v
             | none => p.price
    inStock := match patch.inStock with
               | some v => parseInStock v
               | none => p.inStock }

/-- `updateProduct` (controller): 404 when absent, 403 when the
requester does not own the product; when a new image file is supplied
the OLD image is destroyed FIRST, then the new one uploaded (a failure
in either rejects into the catch → 500); `findByIdAndUpdate` with
runValidators replaces the document when the update data validates. -/
def updateProduct (s : State) (pid userId : Nat) (patch : Patch) (hasFile : Bool) :
    Nat × State :=
  match s.products.find? (fun p => p.id = pid) with
  | none => (404, s)
  | some product =>
    if product.shopId ≠ userId then (403, s)
    else
      let updateData := applyPatch product patch
      if hasFile then
        match (if product.imagePublicId ≠ "" then destroyImage s.cloud product.imagePublicId
               else some s.cloud) with
        | none => (500, s)
        | some c1 =>
          match uploadImage c1 with
          | none => (500, { s with cloud := c1 })
          | some (c2, url, pubId) =>
            let updated := { updateData with imageURL := url, imagePublicId := pubId }
            if validProduct updated then
              (200, { s with
                      cloud := c2
                      products := s.products.map (fun q => if q.id = pid then updated else q) })
            else (500, { s with cloud := c2 })
      else
        if validProduct updateData then
          (200, { s with products := s.products.map (fun q => if q.id = pid then updateData else q) })
        else (500, s)

/-- `deleteProduct` (controller): 404 when absent, 403 when not owner;
the Cloudinary destroy is awaited BEFORE `findByIdAndDelete`, so a
rejected destroy falls into the catch → 500 and the record survives. -/
def deleteProduct (s : State) (pid userId : Nat) : Nat × State :=
  match s.products.find? (fun p => p.id = pid) with
  | none => (404, s)
  | some product =>
    if product.shopId ≠ userId then (403, s)
    else
      match (if product.imagePublicId ≠ "" then destroyImage s.cloud product.imagePublicId
             else some s.cloud) with
      | none => (500, s)
      | some c1 =>
        (200, { s with
                cloud := c1
                products := s.products.filter (fun q => q.id ≠ pid) })

/-- Error kinds distinguished by backend/middleware/errorHandler.js. -/
inductive ErrKind where
  | castError
  | duplicateKey
  | validationError
  | multerFileSize
  | multerOther
  | other
deriving Repr, DecidableEq

/-- The status chosen by the error-handling middleware
(`error.statusCode || 500` in the fall-through case). -/
def errorHandlerStatus (kind : ErrKind) (statusCode : Option Nat) : Nat :=
  match kind with
  | .castError => 404
  | .duplicateKey => 400
  | .validationError => 400
  | .multerFileSize => 400
  | .multerOther => 400
  | .other => statusCode.getD 500

/-- A catalog operation, for invariants quantified over operations. -/
inductive Op where
  | create (userId : Nat) (form : CreateForm) (hasFile : Bool)
  | update (pid userId : Nat) (patch : Patch) (hasFile : Bool)
  | delete (pid userId : Nat)

/-- State transition of one catalog operation. -/
def applyOp (s : State) : Op → State
  | .create u f h => (createProduct s u f h).2
  | .update pid u patch h => (updateProduct s pid u patch h).2
  | .delete pid u => (deleteProduct s pid u).2

/-- Well-formedness maintained by the store: ids are below the
fresh-id counter and pairwise distinct (the `_id` unique index). -/
def StoreInv (s : State) : Prop :=
  (∀ p ∈ s.products, p.id < s.nextId) ∧ (s.products.map Product.id).Nodup

/-! ### Shared concrete instances -/

/-- The all-absent PUT body. -/
def patch0 : Patch := ⟨none, none, none, none, none⟩

/-- A stored product owned by user 1 with image public id "old". -/
def prod0 : Product :=
  ⟨0, "Phone", "A phone", "url-old", "old", 1, "Electronics", none, true, 0⟩

/-- Image store holding "old" whose next upload call will fail. -/
def cloudUploadFails : Cloud := ⟨["old"], false, "pid-new", "url-new", true⟩

/-- Server state for the failing-upload scenario. -/
def stateUploadFails : State := ⟨[prod0], cloudUploadFails, 1⟩

/-- Image store holding "old" whose next destroy call will fail. -/
def cloudDestroyFails : Cloud := ⟨["old"], true, "pid-new", "url-new", false⟩

/-- Server state for the failing-destroy scenario. -/
def stateDestroyFails : State := ⟨[prod0], cloudDestroyFails, 1⟩

/-- A healthy image store. -/
def cloudOk : Cloud := ⟨[], true, "pid1", "url1", true⟩

/-- State with an empty catalog and a healthy image store. -/
def emptyState : State := ⟨[], cloudOk, 0⟩

/-- State holding `prod0` with a healthy image store. -/
def stateOk : State := ⟨[prod0], cloudOk, 1⟩

def msAny : String → Product → Bool := fun _ _ => true

def queryAll : ListQuery := ⟨none, none, none, none, none⟩

def formStockFalse : CreateForm :=
  ⟨some "T", some "D", some "Electronics", none, some "false"⟩

def prodStockFalse : Product :=
  ⟨0, "T", "D", "url1", "pid1", 7, "Electronics", none, false, 0⟩

def formNoTitle : CreateForm := ⟨none, some "D", some "Electronics", none, none⟩

def patchTitle : Patch := ⟨some "New", none, none, none, none⟩

def prod0Renamed : Product :=
  ⟨0, "New", "A phone", "url-old", "old", 1, "Electronics", none, true, 0⟩

def patchPrice : Patch := ⟨none, none, none, some 5, none⟩

def prodPrice5 : Product :=
  ⟨0, "Phone", "A phone", "url-old", "old", 1, "Electronics", some 5, true, 0⟩

/-! ### Shared helper lemmas -/

/-- Integer ceiling division `(a + b - 1) / b` agrees with the exact
ceiling `Math.ceil(a / b)` for positive `b`. -/
theorem nat_ceil_div (a b : ℕ) (hb : 0 < b) :
    ((a + b - 1) / b : ℕ) = ⌈(a : ℚ) / (b : ℚ)⌉₊ := by
  have hbq : (0 : ℚ) < (b : ℚ) := by exact_mod_cast hb
  apply le_antisymm
  · rw [Nat.div_le_iff_le_mul_add_pred hb]
    have h1 : (a : ℚ) / (b : ℚ) ≤ (⌈(a : ℚ) / (b : ℚ)⌉₊ : ℚ) := Nat.le_ceil _
    rw [div_le_iff₀ hbq] at h1
    have h2 : a ≤ b * ⌈(a : ℚ) / (b : ℚ)⌉₊ := by
      rw [Nat.mul_comm]
      exact_mod_cast h1
    omega
  · rw [Nat.ceil_le, div_le_iff₀ hbq]
    have h3 : b * ((a + b - 1) / b) + (a + b - 1) % b = a + b - 1 := Nat.div_add_mod _ _
    have h4 : (a + b - 1) % b < b := Nat.mod_lt _ hb
    have h5 : a ≤ ((a + b - 1) / b) * b := by
      rw [Nat.mul_comm]
      omega
    exact_mod_cast h5

/-- JS `parseInt(x) || d` never yields 0 for a positive default. -/
theorem jsParseIntOr_pos (v : Option Nat) (d : Nat) (hd : 0 < d) :
    0 < jsParseIntOr v d := by
  cases v with
  | none => exact hd
  | some n =>
    by_cases hn : n = 0
    · simp [jsParseIntOr, hn, hd]
    · simp [jsParseIntOr, hn]
      omega

/-- In a collection with pairwise-distinct ids, two members with the
same id coincide. -/
theorem eq_of_mem_nodup_ids {l : List Product}
    (hnd : (l.map Product.id).Nodup) {p q : Product}
    (hp : p ∈ l) (hq : q ∈ l) (h : p.id = q.id) : p = q :=
  List.inj_on_of_nodup_map hnd hp hq h

theorem applyPatch_id (p : Product) (patch : Patch) : (applyPatch p patch).id = p.id := rfl

theorem applyPatch_shopId (p : Product) (patch : Patch) :
    (applyPatch p patch).shopId = p.shopId := rfl

theorem createProduct_products (s : State) (u : Nat) (f : CreateForm) (hf : Bool) :
    (createProduct s u f hf).2.products = s.products ∨
    ∃ np : Product, np.id = s.nextId ∧
      (createProduct s u f hf).2.products = np :: s.products := by
  simp only [createProduct]
  split
  · left; rfl
  · split
    · left; rfl
    · split
      · right
        exact ⟨_, rfl, rfl⟩
      · left; rfl

theorem createProduct_nextId (s : State) (u : Nat) (f : CreateForm) (hf : Bool) :
    s.nextId ≤ (createProduct s u f hf).2.nextId := by
  simp only [createProduct]
  split
  · exact le_refl _
  · split
    · exact le_refl _
    · split
      · exact Nat.le_succ _
      · exact le_refl _

theorem updateProduct_products (s : State) (pid uid : Nat) (patch : Patch) (hf : Bool) :
    (updateProduct s pid uid patch hf).2.products = s.products ∨
    ∃ product updated : Product,
      s.products.find? (fun q => q.id = pid) = some product ∧
      updated.id = product.id ∧ updated.shopId = product.shopId ∧
      (updateProduct s pid uid patch hf).2.products =
        s.products.map (fun q => if q.id = pid then updated else q) := by
  simp only [updateProduct]
  split
  · left; rfl
  · rename_i product hfind
    split
    · left; rfl
    · split
      · split
        · left; rfl
        · split
          · left; rfl
          · rename_i cnew unew pnew hup
            split
            · right
              exact ⟨product,
                { applyPatch product patch with
                    imageURL := unew, imagePublicId := pnew },
                hfind, rfl, rfl, rfl⟩
            · left; rfl
      · split
        · right
          exact ⟨product, applyPatch product patch, hfind, rfl, rfl, rfl⟩
        · left; rfl

theorem updateProduct_nextId (s : State) (pid uid : Nat) (patch : Patch) (hf : Bool) :
    (updateProduct s pid uid patch hf).2.nextId = s.nextId := by
  simp only [updateProduct]
  split
  · rfl
  · split
    · rfl
    · split
      · split
        · rfl
        · split
          · rfl
          · split <;> rfl
      · split <;> rfl

theorem deleteProduct_products (s : State) (pid uid : Nat) :
    (deleteProduct s pid uid).2.products = s.products ∨
    (deleteProduct s pid uid).2.products = s.products.filter (fun q => q.id ≠ pid) := by
  simp only [deleteProduct]
  split
  · left; rfl
  · split
    · left; rfl
    · split
      · left; rfl
      · right; rfl

theorem deleteProduct_nextId (s : State) (pid uid : Nat) :
    (deleteProduct s pid uid).2.nextId = s.nextId := by
  simp only [deleteProduct]
  split
  · rfl
  · split
    · rfl
    · split <;> rfl

theorem update_fun_id {pid : Nat} {updated : Product} (hupd : updated.id = pid) (q : Product) :
    (if q.id = pid then updated else q).id = q.id := by
  by_cases h : q.id = pid
  · rw [if_pos h, hupd, h]
  · rw [if_neg h]

theorem map_id_update {l : List Product} {pid : Nat} {updated : Product}
    (hupd : updated.id = pid) :
    (l.map (fun q => if q.id = pid then updated else q)).map Product.id =
      l.map Product.id := by
  rw [List.map_map]
  apply List.map_congr_left
  intro q _
  exact update_fun_id hupd q

theorem createProduct_shape (s : State) (u : Nat) (f : CreateForm) (hf : Bool) :
    ((createProduct s u f hf).2.products = s.products ∧
     (createProduct s u f hf).2.nextId = s.nextId) ∨
    ∃ np : Product, np.id = s.nextId ∧
      (createProduct s u f hf).2.products = np :: s.products ∧
      (createProduct s u f hf).2.nextId = s.nextId + 1 := by
  simp only [createProduct]
  split
  · exact Or.inl ⟨rfl, rfl⟩
  · split
    · exact Or.inl ⟨rfl, rfl⟩
    · split
      · right
        refine ⟨_, ?_, rfl, ?_⟩ <;> rfl
      · exact Or.inl ⟨rfl, rfl⟩

theorem storeInv_applyOp (s : State) (op : Op) (hinv : StoreInv s) :
    StoreInv (applyOp s op) := by
  obtain ⟨hlt, hnd⟩ := hinv
  cases op with
  | create u f hf =>
    show StoreInv (createProduct s u f hf).2
    rcases createProduct_shape s u f hf with ⟨hp, hn⟩ | ⟨np, hid, hp, hn⟩
    · rw [StoreInv, hp, hn]
      exact ⟨hlt, hnd⟩
    · rw [StoreInv, hp, hn]
      constructor
      · intro p hp'
        rcases List.mem_cons.1 hp' with rfl | hmem
        · omega
        · have := hlt p hmem
          omega
      · rw [List.map_cons]
        refine List.nodup_cons.2 ⟨?_, hnd⟩
        rw [hid]
        intro hmem
        rcases List.mem_map.1 hmem with ⟨q, hq, hqid⟩
        have := hlt q hq
        omega
  | update pid uid patch hf =>
    show StoreInv (updateProduct s pid uid patch hf).2
    have hnext := updateProduct_nextId s pid uid patch hf
    rcases updateProduct_products s pid uid patch hf with hp | ⟨product, updated, hfind, huid, _, hp⟩
    · rw [StoreInv, hp, hnext]
      exact ⟨hlt, hnd⟩
    · have hpid : product.id = pid := by simpa using List.find?_some hfind
      have hupd : updated.id = pid := by rw [huid, hpid]
      rw [StoreInv, hp, hnext]
      constructor
      · intro p hp'
        rcases List.mem_map.1 hp' with ⟨q, hq, rfl⟩
        rw [update_fun_id hupd q]
        exact hlt q hq
      · rw [map_id_update hupd]
        exact hnd
  | delete pid uid =>
    show StoreInv (deleteProduct s pid uid).2
    have hnext := deleteProduct_nextId s pid uid
    rcases deleteProduct_products s pid uid with hp | hp
    · rw [StoreInv, hp, hnext]
      exact ⟨hlt, hnd⟩
    · rw [StoreInv, hp, hnext]
      constructor
      · intro p hp'
        exact hlt p (List.mem_of_mem_filter hp')
      · exact List.Nodup.sublist ((List.filter_sublist _).map Product.id) hnd

theorem applyOp_nextId_mono (s : State) (op : Op) : s.nextId ≤ (applyOp s op).nextId := by
  cases op with
  | create u f hf => exact createProduct_nextId s u f hf
  | update pid uid patch hf => exact le_of_eq (updateProduct_nextId s pid uid patch hf).symm
  | delete pid uid => exact le_of_eq (deleteProduct_nextId s pid uid).symm

theorem id_absent_applyOp (s : State) (op : Op) (i : Nat) (hi : i < s.nextId)
    (habs : ∀ q ∈ s.products, q.id ≠ i) :
    ∀ q' ∈ (applyOp s op).products, q'.id ≠ i := by
  intro q' hq'
  cases op with
  | create u f hf =>
    simp only [applyOp] at hq'
    rcases createProduct_shape s u f hf with ⟨hp, _⟩ | ⟨np, hid, hp, _⟩
    · rw [hp] at hq'
      exact habs q' hq'
    · rw [hp] at hq'
      rcases List.mem_cons.1 hq' with rfl | hmem
      · omega
      · exact habs q' hmem
  | update pid uid patch hf =>
    simp only [applyOp] at hq'
    rcases updateProduct_products s pid uid patch hf with hp | ⟨product, updated, hfind, huid, _, hp⟩
    · rw [hp] at hq'
      exact habs q' hq'
    · have hpid : product.id = pid := by simpa using List.find?_some hfind
      have hupd : updated.id = pid := by rw [huid, hpid]
      rw [hp] at hq'
      rcases List.mem_map.1 hq' with ⟨q, hq, rfl⟩
      rw [update_fun_id hupd q]
      exact habs q hq
  | delete pid uid =>
    simp only [applyOp] at hq'
    rcases deleteProduct_products s pid uid with hp | hp
    · rw [hp] at hq'
      exact habs q' hq'
    · rw [hp] at hq'
      exact habs q' (List.mem_of_mem_filter hq')

theorem id_absent_foldl (ops : List Op) (s : State) (i : Nat) (hi : i < s.nextId)
    (habs : ∀ q ∈ s.products, q.id ≠ i) :
    ∀ q' ∈ (ops.foldl applyOp s).products, q'.id ≠ i := by
  induction ops generalizing s with
  | nil => simpa using habs
  | cons op rest ih =>
    rw [List.foldl_cons]
    exact ih (applyOp s op) (lt_of_lt_of_le hi (applyOp_nextId_mono s op))
      (id_absent_applyOp s op i hi habs)

theorem shopId_applyOp (s : State) (op : Op) (hinv : StoreInv s)
    (p p' : Product) (hp : p ∈ s.products)
    (hp' : p' ∈ (applyOp s op).products) (hid : p'.id = p.id) :
    p'.shopId = p.shopId := by
  obtain ⟨hlt, hnd⟩ := hinv
  cases op with
  | create u f hf =>
    simp only [applyOp] at hp'
    rcases createProduct_shape s u f hf with ⟨hps, _⟩ | ⟨np, hnpid, hps, _⟩
    · rw [hps] at hp'
      rw [eq_of_mem_nodup_ids hnd hp' hp hid]
    · rw [hps] at hp'
      rcases List.mem_cons.1 hp' with rfl | hmem
      · have := hlt p hp
        omega
      · rw [eq_of_mem_nodup_ids hnd hmem hp hid]
  | update pid uid patch hf =>
    simp only [applyOp] at hp'
    rcases updateProduct_products s pid uid patch hf with hps | ⟨product, updated, hfind, huid, hshop, hps⟩
    · rw [hps] at hp'
      rw [eq_of_mem_nodup_ids hnd hp' hp hid]
    · have hpid : product.id = pid := by simpa using List.find?_some hfind
      have hupd : updated.id = pid := by rw [huid, hpid]
      rw [hps] at hp'
      rcases List.mem_map.1 hp' with ⟨q, hq, rfl⟩
      by_cases hqid : q.id = pid
      · rw [if_pos hqid] at hid ⊢
        have hprodmem : product ∈ s.products := List.mem_of_find?_eq_some hfind
        have : product = p := by
          apply eq_of_mem_nodup_ids hnd hprodmem hp
          rw [hpid, ← hupd, hid]
        rw [hshop, this]
      · rw [if_neg hqid] at hid ⊢
        rw [eq_of_mem_nodup_ids hnd hq hp hid]
  | delete pid uid =>
    simp only [applyOp] at hp'
    rcases deleteProduct_products s pid uid with hps | hps
    · rw [hps] at hp'
      rw [eq_of_mem_nodup_ids hnd hp' hp hid]
    · rw [hps] at hp'
      rw [eq_of_mem_nodup_ids hnd (List.mem_of_mem_filter hp') hp hid]

/-- C6: over any sequence of catalog operations starting from a
well-formed store, a product's owning user reference (shopId) never
changes: any product found after the sequence with the id of an
initially present product carries the same shopId. -/
theorem owner_never_changes (ops : List Op) (s : State) (hinv : StoreInv s)
    (p p' : Product) (hp : p ∈ s.products)
    (hp' : p' ∈ (ops.foldl applyOp s).products) (hid : p'.id = p.id) :
    p'.shopId = p.shopId := by
  induction ops generalizing s p with
  | nil =>
    simp only [List.foldl_nil] at hp'
    rw [eq_of_mem_nodup_ids hinv.2 hp' hp hid]
  | cons op rest ih =>
    simp only [List.foldl_cons] at hp'
    by_cases hex : ∃ q ∈ (applyOp s op).products, q.id = p.id
    · obtain ⟨q, hq, hqid⟩ := hex
      have h1 : q.shopId = p.shopId := shopId_applyOp s op hinv p q hp hq hqid
      have h2 : p'.shopId = q.shopId :=
        ih (applyOp s op) (storeInv_applyOp s op hinv) q hq hp' (by rw [hid, hqid])
      rw [h2, h1]
    · push_neg at hex
      have hi : p.id < s.nextId := hinv.1 p hp
      have habs : ∀ q' ∈ (rest.foldl applyOp (applyOp s op)).products, q'.id ≠ p.id :=
        id_absent_foldl rest (applyOp s op) p.id
          (lt_of_lt_of_le hi (applyOp_nextId_mono s op)) hex
      exact absurd hid (habs p' hp')

theorem mem_map_update (l : List Product) (pid : Nat) (updated p' : Product)
    (hp' : p' ∈ l.map (fun q => if q.id = pid then updated else q))
    (hid' : p'.id = pid) : p' = updated := by
  rcases List.mem_map.1 hp' with ⟨q, hq, rfl⟩
  by_cases h : q.id = pid
  · rw [if_pos h]
  · rw [if_neg h] at hid' ⊢
    exact absurd hid' h

theorem mem_unchanged {l : List Product} {pid : Nat} {p p' : Product}
    (hnd : (l.map Product.id).Nodup)
    (hfind : l.find? (fun q => q.id = pid) = some p)
    (hp' : p' ∈ l) (hid' : p'.id = pid) : p' = p := by
  have hpid : p.id = pid := by simpa using List.find?_some hfind
  exact eq_of_mem_nodup_ids hnd hp' (List.mem_of_find?_eq_some hfind) (by rw [hid', hpid])

theorem applyPatch_title_none {p : Product} {patch : Patch} (h : patch.title = none)
    (ht : jsTrim p.title = p.title) : (applyPatch p patch).title = p.title := by
  simp [applyPatch, jsOrStr, h, ht]

theorem applyPatch_description_none {p : Product} {patch : Patch}
    (h : patch.description = none) (hd : jsTrim p.description = p.description) :
    (applyPatch p patch).description = p.description := by
  simp [applyPatch, jsOrStr, h, hd]

theorem applyPatch_category_none {p : Product} {patch : Patch}
    (h : patch.category = none) (hc : jsTrim p.category = p.category) :
    (applyPatch p patch).category = p.category := by
  simp [applyPatch, jsOrStr, h, hc]

theorem applyPatch_price_none {p : Product} {patch : Patch} (h : patch.price = none) :
    (applyPatch p patch).price = p.price := by
  simp [applyPatch, h]

theorem applyPatch_inStock_none {p : Product} {patch : Patch} (h : patch.inStock = none) :
    (applyPatch p patch).inStock = p.inStock := by
  simp [applyPatch, h]

/-- C7: in any Update call, every field absent from the patch keeps
its prior value in the product stored under the updated id (title,
description, category, price, inStock), for stored products whose
string fields are trimmed, as the schema guarantees. -/
theorem update_absent_fields_retained (s : State) (pid uid : Nat) (patch : Patch)
    (hf : Bool) (p : Product)
    (hfind : s.products.find? (fun q => q.id = pid) = some p)
    (hnd : (s.products.map Product.id).Nodup)
    (ht : jsTrim p.title = p.title)
    (hd : jsTrim p.description = p.description)
    (hc : jsTrim p.category = p.category) :
    ∀ p' ∈ (updateProduct s pid uid patch hf).2.products, p'.id = pid →
      (patch.title = none → p'.title = p.title) ∧
      (patch.description = none → p'.description = p.description) ∧
      (patch.category = none → p'.category = p.category) ∧
      (patch.price = none → p'.price = p.price) ∧
      (patch.inStock = none → p'.inStock = p.inStock) := by
  have hpid : p.id = pid := by simpa using List.find?_some hfind
  intro p' hp' hid'
  have base : p' = p →
      (patch.title = none → p'.title = p.title) ∧
      (patch.description = none → p'.description = p.description) ∧
      (patch.category = none → p'.category = p.category) ∧
      (patch.price = none → p'.price = p.price) ∧
      (patch.inStock = none → p'.inStock = p.inStock) := by
    rintro rfl
    exact ⟨fun _ => rfl, fun _ => rfl, fun _ => rfl, fun _ => rfl, fun _ => rfl⟩
  have viaPatch : ∀ upd : Product,
      upd.title = (applyPatch p patch).title →
      upd.description = (applyPatch p patch).description →
      upd.category = (applyPatch p patch).category →
      upd.price = (applyPatch p patch).price →
      upd.inStock = (applyPatch p patch).inStock →
      p' = upd →
      (patch.title = none → p'.title = p.title) ∧
      (patch.description = none → p'.description = p.description) ∧
      (patch.category = none → p'.category = p.category) ∧
      (patch.price = none → p'.price = p.price) ∧
      (patch.inStock = none → p'.inStock = p.inStock) := by
    rintro upd e1 e2 e3 e4 e5 rfl
    refine ⟨?_, ?_, ?_, ?_, ?_⟩
    · intro h0
      rw [e1, applyPatch_title_none h0 ht]
    · intro h0
      rw [e2, applyPatch_description_none h0 hd]
    · intro h0
      rw [e3, applyPatch_category_none h0 hc]
    · intro h0
      rw [e4, applyPatch_price_none h0]
    · intro h0
      rw [e5, applyPatch_inStock_none h0]
  simp only [updateProduct, hfind] at hp'
  split at hp'
  · exact base (mem_unchanged hnd hfind hp' hid')
  · split at hp'
    · split at hp'
      · exact base (mem_unchanged hnd hfind hp' hid')
      · rename_i c1 hdes
        split at hp'
        · exact base (mem_unchanged hnd hfind hp' hid')
        · rename_i cnew unew pnew hup
          split at hp'
          · exact viaPatch
              { applyPatch p patch with imageURL := unew, imagePublicId := pnew }
              rfl rfl rfl rfl rfl
              (mem_map_update s.products pid
                { applyPatch p patch with imageURL := unew, imagePublicId := pnew }
                p' hp' hid')
          · exact base (mem_unchanged hnd hfind hp' hid')
    · split at hp'
      · exact viaPatch (applyPatch p patch) rfl rfl rfl rfl rfl
          (mem_map_update s.products pid (applyPatch p patch) p' hp' hid')
      · exact base (mem_unchanged hnd hfind hp' hid')

/-- C4: for an existing product whose owner differs from the
authenticated requester, both Update and Delete answer 403 and leave
the entire server state unchanged. -/
theorem nonowner_mutations_rejected (s : State) (pid uid : Nat) (patch : Patch)
    (hf : Bool) (p : Product)
    (hfind : s.products.find? (fun q => q.id = pid) = some p)
    (hown : p.shopId ≠ uid) :
    updateProduct s pid uid patch hf = (403, s) ∧
    deleteProduct s pid uid = (403, s) := by
  constructor
  · simp only [updateProduct, hfind]
    rw [if_pos hown]
  · simp only [deleteProduct, hfind]
    rw [if_pos hown]

theorem nonowner_mutations_rejected_witness :
    updateProduct stateOk 0 2 patch0 true = (403, stateOk) ∧
    deleteProduct stateOk 0 2 = (403, stateOk) :=
  nonowner_mutations_rejected stateOk 0 2 patch0 true prod0 rfl (by decide)

/-- C8: after any successful Delete, a subsequent GetById of the same
id answers 404. -/
theorem delete_then_get_not_found (s : State) (pid uid : Nat)
    (h200 : (deleteProduct s pid uid).1 = 200) :
    getProduct (deleteProduct s pid uid).2 pid = 404 := by
  cases hE : s.products.find? (fun q => q.id = pid) with
  | none =>
    simp only [deleteProduct, hE] at h200
    simp at h200
  | some product =>
    simp only [deleteProduct, hE] at h200 ⊢
    by_cases hown : product.shopId ≠ uid
    · rw [if_pos hown] at h200
      simp at h200
    · rw [if_neg hown] at h200 ⊢
      cases hD : (if product.imagePublicId ≠ "" then
          destroyImage s.cloud product.imagePublicId else some s.cloud) with
      | none =>
        rw [hD] at h200
        simp at h200
      | some c1 =>
        simp only [getProduct]
        rw [List.find?_eq_none.2]
        intro x hx
        have hne := List.of_mem_filter hx
        simpa using hne

theorem delete_then_get_not_found_witness :
    getProduct (deleteProduct stateOk 0 1).2 0 = 404 :=
  delete_then_get_not_found stateOk 0 1 rfl

/-- C9: the product made by a successful Create has inStock = false
exactly when the supplied form value is the literal string "false";
any other value and an absent field both give inStock = true. -/
theorem create_inStock_false_literal (s : State) (uid : Nat) (form : CreateForm)
    (h201 : (createProduct s uid form true).1 = 201) :
    ∀ p : Product, (createProduct s uid form true).2.products.head? = some p →
      (p.inStock = false ↔ form.inStock = some "false") := by
  intro p hp
  simp only [createProduct] at h201 hp
  have hnf : ¬((!true) = true) := by decide
  rw [if_neg hnf] at h201 hp
  cases hU : uploadImage s.cloud with
  | none =>
    rw [hU] at h201
    simp at h201
  | some r =>
    rw [hU] at h201 hp
    simp only [] at h201 hp
    split at hp
    · simp only [List.head?_cons, Option.some.injEq] at hp
      subst hp
      cases hstock : form.inStock with
      | none => simp
      | some v =>
        by_cases hv : v = "false"
        · subst hv
          simp [parseInStock]
        · simp only [parseInStock, hv, if_neg]
          constructor
          · intro hcontra
            simp at hcontra
          · intro hcontra
            rw [Option.some.injEq] at hcontra
            exact absurd hcontra hv
    · rename_i hV
      rw [if_neg hV] at h201
      simp at h201

theorem create_inStock_false_literal_witness :
    (createProduct emptyState 7 formStockFalse true).1 = 201 ∧
    (prodStockFalse.inStock = false ↔ formStockFalse.inStock = some "false") :=
  ⟨rfl, create_inStock_false_literal emptyState 7 formStockFalse rfl prodStockFalse rfl⟩

theorem applyPatch_congr_empty (p : Product) (t d c : Option String)
    (pr : Option Int) (ist : Option String) :
    applyPatch p ⟨some "", d, c, pr, ist⟩ = applyPatch p ⟨none, d, c, pr, ist⟩ ∧
    applyPatch p ⟨t, some "", c, pr, ist⟩ = applyPatch p ⟨t, none, c, pr, ist⟩ ∧
    applyPatch p ⟨t, d, some "", pr, ist⟩ = applyPatch p ⟨t, d, none, pr, ist⟩ := by
  refine ⟨?_, ?_, ?_⟩ <;> simp [applyPatch, jsOrStr]

theorem updateProduct_patch_congr (s : State) (pid uid : Nat) (hf : Bool)
    (pa pb : Patch) (hp : ∀ p : Product, applyPatch p pa = applyPatch p pb) :
    updateProduct s pid uid pa hf = updateProduct s pid uid pb hf := by
  simp only [updateProduct, hp]

/-- C10: supplying the empty string for title, description or
category in an Update patch is indistinguishable from omitting the
field: the whole call computes the same response and state. -/
theorem update_empty_string_keeps_prior (s : State) (pid uid : Nat)
    (t d c : Option String) (pr : Option Int) (ist : Option String) (hf : Bool) :
    updateProduct s pid uid ⟨some "", d, c, pr, ist⟩ hf =
      updateProduct s pid uid ⟨none, d, c, pr, ist⟩ hf ∧
    updateProduct s pid uid ⟨t, some "", c, pr, ist⟩ hf =
      updateProduct s pid uid ⟨t, none, c, pr, ist⟩ hf ∧
    updateProduct s pid uid ⟨t, d, some "", pr, ist⟩ hf =
      updateProduct s pid uid ⟨t, d, none, pr, ist⟩ hf := by
  refine ⟨?_, ?_, ?_⟩
  · exact updateProduct_patch_congr s pid uid hf _ _
      (fun p => (applyPatch_congr_empty p t d c pr ist).1)
  · exact updateProduct_patch_congr s pid uid hf _ _
      (fun p => (applyPatch_congr_empty p t d c pr ist).2.1)
  · exact updateProduct_patch_congr s pid uid hf _ _
      (fun p => (applyPatch_congr_empty p t d c pr ist).2.2)

/-- C5: every List call returns at most `limit` products, all of them
satisfying the filter; the pagination metadata satisfies
`pages = ceil(total / limit)` where `total` counts all matching
products; absent page and limit parameters default to 1 and 10. -/
theorem list_pagination_contract (ms : String → Product → Bool) (s : State)
    (q : ListQuery) :
    (getProducts ms s q).2.1.length ≤ (getProducts ms s q).2.2.limit ∧
    (∀ p ∈ (getProducts ms s q).2.1, matchesFilter ms q p = true) ∧
    ((getProducts ms s q).2.2.pages : ℤ) =
      ⌈((getProducts ms s q).2.2.total : ℚ) / ((getProducts ms s q).2.2.limit : ℚ)⌉₊ ∧
    (getProducts ms s q).2.2.total = (s.products.filter (matchesFilter ms q)).length ∧
    (q.page = none → (getProducts ms s q).2.2.page = 1) ∧
    (q.limit = none → (getProducts ms s q).2.2.limit = 10) := by
  refine ⟨?_, ?_, ?_, ?_, ?_, ?_⟩
  · exact List.length_take_le _ _
  · intro p hp
    have h1 : p ∈ sortNewestFirst (s.products.filter (matchesFilter ms q)) :=
      List.mem_of_mem_drop (List.mem_of_mem_take hp)
    have h2 : p ∈ s.products.filter (matchesFilter ms q) :=
      (List.perm_insertionSort _ _).mem_iff.1 h1
    exact List.of_mem_filter h2
  · have hl : 0 < jsParseIntOr q.limit 10 := jsParseIntOr_pos q.limit 10 (by decide)
    have := nat_ceil_div (s.products.filter (matchesFilter ms q)).length
      (jsParseIntOr q.limit 10) hl
    exact_mod_cast this
  · rfl
  · intro h0
    simp [getProducts, jsParseIntOr, h0]
  · intro h0
    simp [getProducts, jsParseIntOr, h0]

theorem list_pagination_contract_witness :
    (getProducts msAny stateOk queryAll).2.1.length ≤
      (getProducts msAny stateOk queryAll).2.2.limit ∧
    (∀ p ∈ (getProducts msAny stateOk queryAll).2.1,
      matchesFilter msAny queryAll p = true) ∧
    ((getProducts msAny stateOk queryAll).2.2.pages : ℤ) =
      ⌈((getProducts msAny stateOk queryAll).2.2.total : ℚ) /
        ((getProducts msAny stateOk queryAll).2.2.limit : ℚ)⌉₊ ∧
    (getProducts msAny stateOk queryAll).2.2.total =
      (stateOk.products.filter (matchesFilter msAny queryAll)).length ∧
    (queryAll.page = none → (getProducts msAny stateOk queryAll).2.2.page = 1) ∧
    (queryAll.limit = none → (getProducts msAny stateOk queryAll).2.2.limit = 10) :=
  list_pagination_contract msAny stateOk queryAll

/-- C1: refuted on the code. When Update is called with a new image and
the upload fails, the product record is indeed unchanged (status 500),
but the controller destroys the OLD image before attempting the upload,
so the old image is already gone from the store: the ordering is
delete-old-first, not upload-new-first, and the old image does not
remain untouched. -/
theorem update_upload_failure_loses_old_image :
    (updateProduct stateUploadFails 0 1 patch0 true).1 = 500 ∧
    (updateProduct stateUploadFails 0 1 patch0 true).2.products = [prod0] ∧
    (updateProduct stateUploadFails 0 1 patch0 true).2.cloud.images = [] :=
  ⟨rfl, rfl, rfl⟩

/-- C2: refuted on the code. When the image-store destroy call fails
during Delete, the controller's catch answers 500 and the record
deletion is never attempted: the state is unchanged and the product is
still retrievable, so the record does become undeletable under an
external-store failure. -/
theorem delete_destroy_failure_blocks_record_delete :
    (deleteProduct stateDestroyFails 0 1).1 = 500 ∧
    (deleteProduct stateDestroyFails 0 1).2 = stateDestroyFails ∧
    getProduct (deleteProduct stateDestroyFails 0 1).2 0 = 200 :=
  ⟨rfl, rfl, rfl⟩

/-- C3: refuted on the code. A Create violating a field constraint
(here: missing title) is answered with status 500 by the controller's
own catch block, even though the error-handling middleware would map a
ValidationError to 400; the middleware is never reached. -/
theorem create_validation_error_maps_to_500 :
    (createProduct emptyState 7 formNoTitle true).1 = 500 ∧
    errorHandlerStatus ErrKind.validationError none = 400 :=
  ⟨rfl, rfl⟩

theorem owner_never_changes_witness :
    StoreInv stateOk ∧ prod0Renamed.shopId = prod0.shopId :=
  ⟨⟨by decide, by decide⟩,
   owner_never_changes [Op.update 0 1 patchTitle false] stateOk ⟨by decide, by decide⟩
     prod0 prod0Renamed (by decide) (by decide) rfl⟩

theorem update_absent_fields_retained_witness :
    prodPrice5.title = prod0.title ∧ prodPrice5.inStock = prod0.inStock :=
  have h := update_absent_fields_retained stateOk 0 1 patchPrice false prod0 rfl
    (by decide) rfl rfl rfl
  ⟨(h prodPrice5 (by decide) rfl).1 rfl, (h prodPrice5 (by decide) rfl).2.2.2.2 rfl⟩

theorem update_empty_string_keeps_prior_witness :
    updateProduct stateOk 0 1 ⟨some "", none, none, none, none⟩ false =
      updateProduct stateOk 0 1 ⟨none, none, none, none, none⟩ false :=
  (update_empty_string_keeps_prior stateOk 0 1 none none none none none false).1
